import Mathlib

set_option autoImplicit false

/-!
Verification of the sqlblade repository's row-scanning / struct-metadata
engine and its WHERE/HAVING assembly, as a shallow embedding of the Go
source (package sqlblade and package dialect) into Lean.

Go integers are modelled as `Int`/`Nat` with explicit wraparound where the
source performs machine conversions; Go's `float64` is carried as `ℚ`
(every finite float is rational; the claims under study never depend on
rounding).  Go panics are modelled as the `.error` branch of an `Except`;
Go's `(value, error)` multi-returns are modelled as pairs with
`Option GoError`.
-/

namespace SQLBlade

/-! ## Go string helpers (package strings), implemented over character
lists so that every concrete evaluation reduces inside the kernel. -/

/-- The characters unicode.IsSpace reports for ASCII input (the only
inputs the operators and column names under study contain). -/
def isGoSpace (c : Char) : Bool :=
  c = ' ' ∨ c = '\t' ∨ c = '\n' ∨ c = '\r' ∨ c = '\x0b' ∨ c = '\x0c'

/-- strings.TrimSpace. -/
def goTrimSpace (s : String) : String :=
  ⟨((s.data.dropWhile isGoSpace).reverse.dropWhile isGoSpace).reverse⟩

/-- strings.ToUpper (ASCII range). -/
def goToUpper (s : String) : String :=
  ⟨s.data.map Char.toUpper⟩

/-- strings.ToLower (ASCII range). -/
def goToLower (s : String) : String :=
  ⟨s.data.map Char.toLower⟩

/-- strings.Split with a one-character separator (the only separators the
source uses are "," and "."). -/
def splitChars (sep : Char) : List Char → List (List Char)
  | [] => [[]]
  | c :: cs =>
    let r := splitChars sep cs
    if c = sep then [] :: r
    else
      match r with
      | h :: t => (c :: h) :: t
      | [] => [[c]]

def goSplit (s : String) (sep : Char) : List String :=
  (splitChars sep s.data).map (fun l => ⟨l⟩)

/-- strings.ReplaceAll with a one-character pattern (the source only
replaces the one-character pattern `"`). -/
def replaceCharAll (pat : Char) (rep : List Char) : List Char → List Char
  | [] => []
  | c :: cs => (if c = pat then rep else [c]) ++ replaceCharAll pat rep cs

/-- strings.Join. -/
def goJoin (sep : String) : List String → String
  | [] => ""
  | [x] => x
  | x :: xs => x ++ sep ++ goJoin sep xs

/-! ## Dialect contract (src/sqlblade/dialect)

Only the two members consumed by the WHERE assembly are needed. -/

structure Dialect where
  Placeholder : Nat → String
  QuoteIdentifier : String → String

/-- PostgreSQL.Placeholder (src/sqlblade/dialect/postgres.go): the 100-entry
cache holds exactly "$<index>", and fastIntToString on a non-negative index
is the decimal representation, so the function is "$" ++ decimal(index). -/
def postgresPlaceholder (index : Nat) : String :=
  "$" ++ toString index

/-- PostgreSQL.QuoteIdentifier (src/sqlblade/dialect/postgres.go): split on
".", double internal double-quotes, wrap each part in double quotes. -/
def postgresQuoteIdentifier (identifier : String) : String :=
  let parts := goSplit identifier '.'
  let quoted := parts.map (fun part =>
    "\"" ++ (⟨replaceCharAll '\"' ['\"', '\"'] part.data⟩ : String) ++ "\"")
  goJoin "." quoted

def PostgreSQL : Dialect :=
  { Placeholder := postgresPlaceholder, QuoteIdentifier := postgresQuoteIdentifier }

/-! ## WHERE/HAVING assembly (src/unnamed/part_006, src/sqlblade/builder.go) -/

/-- A dynamic Go value (`interface{}`) as carried by a where clause.  The
only shape the assembly inspects is the type assertion `.([]interface{})`;
scalars are opaque and identified by a label. -/
inductive GoDyn where
  | vlist (vs : List GoDyn)
  | vscalar (tag : String)

/-- WhereClause (src/unnamed/part_006 lines 10-15). -/
structure WhereClause where
  Column : String
  Operator : String
  Value : GoDyn
  And : Bool

/-- validOperators (src/unnamed/part_006 lines 18-34), as the key list of
the Go map whose values are all `true`. -/
def validOperators : List String :=
  ["=", "!=", "<>", ">", ">=", "<", "<=", "IN", "NOT IN", "LIKE",
   "NOT LIKE", "IS NULL", "IS NOT NULL", "BETWEEN", "NOT BETWEEN"]

/-- isValidOperator (src/unnamed/part_006 lines 37-39): membership after
TrimSpace and ToUpper; a missing map key reads back as `false`. -/
def isValidOperator (op : String) : Bool :=
  validOperators.contains (goToUpper (goTrimSpace op))

/-- The `for j := range values` loop of the IN / NOT IN case
(src/unnamed/part_006 lines 64-69): per element, advance the shared
parameter index, render its placeholder, and bind the element.  The last
component is the emission trace: each placeholder index paired with the
argument bound at that emission, in emission order (ghost output used to
state the placeholder-monotonicity claims). -/
def inListLoop (d : Dialect) :
    List GoDyn → Nat → List String × List GoDyn × Nat × List (Nat × GoDyn)
  | [], paramIndex => ([], [], paramIndex, [])
  | v :: rest, paramIndex =>
    let idx := paramIndex + 1
    let ph := d.Placeholder idx
    let r := inListLoop d rest idx
    (ph :: r.1, v :: r.2.1, r.2.2.1, (idx, v) :: r.2.2.2)

/-- The `switch op` of buildWhereClause (src/unnamed/part_006 lines 59-85),
rendering one clause's condition.  Returns the condition string (empty when
the clause's value has the wrong shape), the arguments bound, the advanced
parameter index, and the emission trace. -/
def renderCondition (d : Dialect) (clause : WhereClause) (op : String)
    (paramIndex : Nat) : String × List GoDyn × Nat × List (Nat × GoDyn) :=
  if op = "IS NULL" ∨ op = "IS NOT NULL" then
    (d.QuoteIdentifier clause.Column ++ " " ++ op, [], paramIndex, [])
  else if op = "IN" ∨ op = "NOT IN" then
    match clause.Value with
    | GoDyn.vlist values =>
      if values.length > 0 then
        let r := inListLoop d values paramIndex
        (d.QuoteIdentifier clause.Column ++ " " ++ op ++ " (" ++
          goJoin ", " r.1 ++ ")", r.2.1, r.2.2.1, r.2.2.2)
      else ("", [], paramIndex, [])
    | _ => ("", [], paramIndex, [])
  else if op = "BETWEEN" ∨ op = "NOT BETWEEN" then
    match clause.Value with
    | GoDyn.vlist [v1, v2] =>
      let idx1 := paramIndex + 1
      let ph1 := d.Placeholder idx1
      let idx2 := idx1 + 1
      let ph2 := d.Placeholder idx2
      (d.QuoteIdentifier clause.Column ++ " " ++ op ++ " " ++ ph1 ++
        " AND " ++ ph2, [v1, v2], idx2, [(idx1, v1), (idx2, v2)])
    | _ => ("", [], paramIndex, [])
  else
    let idx := paramIndex + 1
    (d.QuoteIdentifier clause.Column ++ " " ++ op ++ " " ++ d.Placeholder idx,
      [clause.Value], idx, [(idx, clause.Value)])

/-- Output of the clause loop: the `parts` and `args` accumulators of the
source, the final shared parameter index, plus two ghost accumulators —
the emission trace and the list of condition fragments actually emitted. -/
structure WhereOut where
  parts : List String
  args : List GoDyn
  paramIndex : Nat
  trace : List (Nat × GoDyn)
  conds : List String

/-- The `for i, clause := range clauses` loop of buildWhereClause
(src/unnamed/part_006 lines 50-97).  `i` is the clause's position in the
ORIGINAL list; an invalid operator is skipped via `continue`; a non-empty
condition is appended to `parts`, preceded by the current clause's
combinator whenever `i > 0`. -/
def whereLoop (d : Dialect) :
    List WhereClause → Nat → Nat → WhereOut
  | [], _, paramIndex => ⟨[], [], paramIndex, [], []⟩
  | clause :: rest, i, paramIndex =>
    let op := goToUpper (goTrimSpace clause.Operator)
    if isValidOperator op then
      let rc := renderCondition d clause op paramIndex
      let condition := rc.1
      let tail := whereLoop d rest (i + 1) rc.2.2.1
      let newParts :=
        if condition ≠ "" then
          (if i > 0 then [if clause.And then "AND" else "OR"] else []) ++ [condition]
        else []
      let newConds := if condition ≠ "" then [condition] else []
      ⟨newParts ++ tail.parts, rc.2.1 ++ tail.args, tail.paramIndex,
        rc.2.2.2 ++ tail.trace, newConds ++ tail.conds⟩
    else
      whereLoop d rest (i + 1) paramIndex

/-- buildWhereClause (src/unnamed/part_006 lines 42-104).  The third
component is the value left in the caller's shared `*paramIndex`. -/
def buildWhereClause (d : Dialect) (clauses : List WhereClause)
    (paramIndex : Nat) : String × List GoDyn × Nat :=
  let r := whereLoop d clauses 0 paramIndex
  if r.parts.isEmpty then ("", [], r.paramIndex)
  else ("WHERE " ++ goJoin " " r.parts, r.args, r.paramIndex)

/-- strings.Replace(s, pat, rep, 1): replace the first occurrence only. -/
def replaceFirstChars (pat rep : List Char) : List Char → List Char
  | [] => []
  | c :: cs =>
    if pat.isPrefixOf (c :: cs) then rep ++ (c :: cs).drop pat.length
    else c :: replaceFirstChars pat rep cs

def goReplaceOnce (s pat rep : String) : String :=
  ⟨replaceFirstChars pat.data rep.data s.data⟩

/-- The WHERE/HAVING portion of QueryBuilder.buildSQL
(src/sqlblade/builder.go lines 220-272): the shared `paramIndex` starts at
0, the WHERE fragment is built first, then — when the having list is
non-empty — the HAVING fragment continues with the same counter and its
leading "WHERE" keyword is rewritten to "HAVING"; arguments accumulate in
fragment order.  (The SELECT/FROM/JOIN/GROUP BY text around these lines
emits no placeholders and binds no arguments, so it is omitted from the
embedding.) -/
def buildSQLFilters (d : Dialect) (whereClauses havingClauses : List WhereClause) :
    String × List GoDyn :=
  let w := buildWhereClause d whereClauses 0
  let buf1 := if w.1 ≠ "" then " " ++ w.1 else ""
  let args1 := if w.1 ≠ "" then w.2.1 else []
  if havingClauses.length > 0 then
    let h := buildWhereClause d havingClauses w.2.2
    if h.1 ≠ "" then
      (buf1 ++ " " ++ goReplaceOnce h.1 "WHERE" "HAVING", args1 ++ h.2.1)
    else (buf1, args1)
  else (buf1, args1)

/-- The combined emission trace of one statement's WHERE and HAVING builds,
with the shared counter starting at 0 exactly as in buildSQL. -/
def filtersTrace (d : Dialect) (whereClauses havingClauses : List WhereClause) :
    List (Nat × GoDyn) :=
  let rw := whereLoop d whereClauses 0 0
  let rh :=
    if havingClauses.length > 0 then (whereLoop d havingClauses 0 rw.paramIndex).trace
    else []
  rw.trace ++ rh

/-! ## Row scanner and metadata engine (src/sqlblade/scanner.go,
src/sqlblade/scanner_optimized.go, src/sqlblade/performance.go,
src/unnamed/part_001) -/

/-- The reflect kinds the scanner distinguishes; every other kind is
carried opaquely with its type's name. -/
inductive Kind where
  | kint | kint8 | kint16 | kint32 | kint64
  | kuint | kuint8 | kuint16 | kuint32 | kuint64
  | kfloat32 | kfloat64
  | kstring
  | kbool
  | kother (tag : String)
deriving DecidableEq, Repr

def isIntKind : Kind → Bool
  | .kint | .kint8 | .kint16 | .kint32 | .kint64 => true
  | _ => false

def isUintKind : Kind → Bool
  | .kuint | .kuint8 | .kuint16 | .kuint32 | .kuint64 => true
  | _ => false

def isFloatKind : Kind → Bool
  | .kfloat32 | .kfloat64 => true
  | _ => false

/-- Bit width of an integer kind (Go `int`/`uint` are 64-bit on the
targets this library supports). -/
def intBits : Kind → Nat
  | .kint8 | .kuint8 => 8
  | .kint16 | .kuint16 => 16
  | .kint32 | .kuint32 => 32
  | _ => 64

/-- A raw driver value held in an `interface{}` scan slot.  SQL drivers
hand back int64, float64, string, bool, or other concrete types
(byte slices, time values, ...), the latter modelled opaquely as a type
tag plus payload.  Driver values are never pointer-typed. -/
inductive RValue where
  | vint (i : Int)
  | vfloat (q : ℚ)
  | vstring (s : String)
  | vbool (b : Bool)
  | vother (tag : String) (payload : String)
deriving DecidableEq, Repr

/-- The stored content of one struct field (the target of reflect's
SetInt/SetUint/SetFloat/SetString/SetBool/Set). -/
inductive FieldVal where
  | fint (v : Int)
  | fuint (v : Nat)
  | ffloat (q : ℚ)
  | fstring (s : String)
  | fbool (b : Bool)
  | fother (tag : String) (payload : String)
deriving DecidableEq, Repr

/-- One struct-field slot of a record value: either the field's direct
storage or a pointer field (none = nil pointer). -/
inductive Slot where
  | direct (v : FieldVal)
  | pointer (v : Option FieldVal)
deriving DecidableEq, Repr

/-- The dynamic type name of a raw driver value (reflect.Type identity is
modelled by name). -/
def typeTag : RValue → String
  | .vint _ => "int64"
  | .vfloat _ => "float64"
  | .vstring _ => "string"
  | .vbool _ => "bool"
  | .vother t _ => t

def kindTag : Kind → String
  | .kint => "int" | .kint8 => "int8" | .kint16 => "int16"
  | .kint32 => "int32" | .kint64 => "int64"
  | .kuint => "uint" | .kuint8 => "uint8" | .kuint16 => "uint16"
  | .kuint32 => "uint32" | .kuint64 => "uint64"
  | .kfloat32 => "float32" | .kfloat64 => "float64"
  | .kstring => "string" | .kbool => "bool"
  | .kother t => t

/-- The declared type name of a field (with `*` for pointer fields);
AssignableTo for the concrete types in play is type identity. -/
def declaredTag (isPtr : Bool) (k : Kind) : String :=
  (if isPtr then "*" else "") ++ kindTag k

def rvalToField : RValue → FieldVal
  | .vint i => .fint i
  | .vfloat q => .ffloat q
  | .vstring s => .fstring s
  | .vbool b => .fbool b
  | .vother t p => .fother t p

/-- reflect.Value.String: unlike the other getters it never panics; on a
non-string value it returns "<T Value>". -/
def rvString : RValue → String
  | .vstring s => s
  | v => "<" ++ typeTag v ++ " Value>"

def zeroVal (k : Kind) : FieldVal :=
  if isIntKind k then .fint 0
  else if isUintKind k then .fuint 0
  else if isFloatKind k then .ffloat 0
  else match k with
    | .kstring => .fstring ""
    | .kbool => .fbool false
    | .kother t => .fother t ""
    | _ => .fint 0

/-- reflect.Value.SetInt truncates its int64 argument to the field's
width (two's complement). -/
def wrapSigned (bits : Nat) (x : Int) : Int :=
  (x + 2 ^ (bits - 1)) % (2 ^ bits : Int) - 2 ^ (bits - 1)

/-- Go's conversion uint64(x) for an int64 x: two's-complement
reinterpretation. -/
def toUint64 (x : Int) : Nat :=
  (x % (2 ^ 64 : Int)).toNat

/-- Go's float-to-integer conversion truncates toward zero.  (For values
outside the target range Go leaves the result implementation-defined; the
wraparound applied by the callers below is one faithful choice and no
claim depends on it.) -/
def truncQ (q : ℚ) : Int :=
  if q ≥ 0 then q.floor else q.ceil

/-- reflect.Type.ConvertibleTo restricted to the conversions reachable in
the default branch of setFieldValue: identity, plus string to byte slice. -/
def goConvertibleTag (v : RValue) (tag : String) : Bool :=
  typeTag v = tag ||
    (match v with
     | .vstring _ => tag = "[]uint8"
     | _ => false)

def convertVal (v : RValue) (tag : String) : FieldVal :=
  if typeTag v = tag then rvalToField v
  else
    match v with
    | .vstring s => .fother "[]uint8" s
    | _ => rvalToField v

/-- The `switch fieldType.Kind()` of setFieldValue (src/sqlblade/scanner.go
lines 222-250), acting on the (possibly pointer-unwrapped) target storage
`cur`.  A Go panic is the `.error` branch: `val.Bool()` panics whenever the
raw value is not a bool; every other branch is total. -/
def convertAndSet (cur : FieldVal) (fieldType : Kind) (val : RValue) :
    Except String FieldVal :=
  if isIntKind fieldType then
    match val with
    | .vint i => .ok (.fint (wrapSigned (intBits fieldType) i))
    | .vfloat q => .ok (.fint (wrapSigned (intBits fieldType) (truncQ q)))
    | _ => .ok cur
  else if isUintKind fieldType then
    match val with
    | .vint i => .ok (.fuint (toUint64 i % 2 ^ intBits fieldType))
    | .vfloat q => .ok (.fuint (toUint64 (truncQ q) % 2 ^ intBits fieldType))
    | _ => .ok cur
  else if isFloatKind fieldType then
    match val with
    | .vfloat q => .ok (.ffloat q)
    | .vint i => .ok (.ffloat (i : ℚ))
    | _ => .ok cur
  else
    match fieldType with
    | .kstring => .ok (.fstring (rvString val))
    | .kbool =>
      match val with
      | .vbool b => .ok (.fbool b)
      | v => .error ("reflect: call of reflect.Value.Bool on " ++ typeTag v ++ " Value")
    | .kother tag =>
      if goConvertibleTag val tag then .ok (convertVal val tag) else .ok cur
    | _ => .ok cur

/-- setFieldValue (src/sqlblade/scanner.go lines 196-253).  `fieldType` is
the pointer-unwrapped target type recorded in the field metadata; `value`
is the raw driver value (`none` models a nil `interface{}`).  The result
is the field slot after the call; `.error` models a Go panic.  (The Go
error return of the source is always nil.) -/
def setFieldValue (field : Slot) (fieldType : Kind) (value : Option RValue) :
    Except String Slot :=
  match value with
  | none =>
    match field with
    | .pointer _ => .ok (.pointer none)
    | .direct v => .ok (.direct v)
  | some val =>
    let isPtr := match field with | .pointer _ => true | .direct _ => false
    if typeTag val = declaredTag isPtr fieldType then
      match field with
      | .direct _ => .ok (.direct (rvalToField val))
      | .pointer p => .ok (.pointer p)
    else
      match field with
      | .pointer p =>
        let cur := match p with | none => zeroVal fieldType | some x => x
        (convertAndSet cur fieldType val).map (fun x => Slot.pointer (some x))
      | .direct cur =>
        (convertAndSet cur fieldType val).map Slot.direct

/-! ## Struct metadata derivation (getStructInfo) -/

inductive GoError where
  | errInvalidModel
  | errNoRows
  | driver (tag : String)
  | wrapScanRow (e : GoError)
deriving DecidableEq, Repr

/-- One declared field of a Go struct type: name, exportedness, the value
of `Tag.Get("db")` (empty when the tag is absent), pointer-ness of the
declared type and its unwrapped kind. -/
structure StructField where
  name : String
  exported : Bool
  dbTag : String
  isPtrType : Bool
  kind : Kind
deriving DecidableEq, Repr

/-- A Go struct type: its bare name, the return value of a value-receiver
TableName method when one exists, and its fields in declaration order. -/
structure StructType where
  name : String
  tableNameMethod : Option String
  fieldList : List StructField
deriving DecidableEq, Repr

/-- A reflect.Type as consumed by getStructInfo. -/
inductive RType where
  | struct (s : StructType)
  | ptr (t : RType)
  | base (k : Kind)
deriving DecidableEq, Repr

/-- The single pointer unwrap at the top of getStructInfo
(src/sqlblade/scanner.go lines 29-31). -/
def unwrapOnePtr : RType → RType
  | .ptr t => t
  | t => t

/-- toSnakeCase (src/sqlblade/scanner.go lines 99-108): insert an
underscore before every non-leading uppercase ASCII letter, then
lower-case the whole string. -/
def snakeStep : List Char → Nat → List Char
  | [], _ => []
  | c :: cs, i =>
    (if 0 < i ∧ 'A' ≤ c ∧ c ≤ 'Z' then ['_', c] else [c]) ++ snakeStep cs (i + 1)

def toSnakeCase (s : String) : String :=
  goToLower ⟨snakeStep s.data 0⟩

/-- fieldInfo (src/sqlblade/scanner.go lines 17-23).  `index` is the
field's position in the struct's full declared layout. -/
structure FieldInfo where
  name : String
  dbColumn : String
  index : Nat
  isPtr : Bool
  fieldKind : Kind
deriving DecidableEq, Repr

/-- structInfo (src/sqlblade/scanner.go lines 11-14). -/
structure StructInfo where
  fields : List FieldInfo
  tableName : String
deriving DecidableEq, Repr

/-- The field loop of getStructInfo (src/sqlblade/scanner.go lines 60-91):
skip unexported fields, skip fields with an empty or "-" db tag, split the
tag on "," and keep the first segment as the column name — stored exactly
as written, with no lower-casing. -/
def deriveFields : List StructField → Nat → List FieldInfo
  | [], _ => []
  | f :: rest, i =>
    if f.exported = false then deriveFields rest (i + 1)
    else if f.dbTag = "" ∨ f.dbTag = "-" then deriveFields rest (i + 1)
    else
      let parts := goSplit f.dbTag ','
      let columnName := parts.headD ""
      ⟨f.name, columnName, i, f.isPtrType, f.kind⟩ :: deriveFields rest (i + 1)

/-- The table-name block of getStructInfo (src/sqlblade/scanner.go lines
46-57): use the TableName method's result when the method exists, and fall
back to snake_case of the bare type name when there is no method or it
returned the empty string. -/
def deriveTableName (s : StructType) : String :=
  let fromMethod := match s.tableNameMethod with | some tn => tn | none => ""
  if fromMethod = "" then toSnakeCase s.name else fromMethod

/-- getStructInfo (src/sqlblade/scanner.go lines 28-96), cache aside:
unwrap one pointer level, fail with ErrInvalidModel unless the result is a
struct type, then derive table name and fields. -/
def getStructInfo (typ : RType) : Except GoError StructInfo :=
  match unwrapOnePtr typ with
  | .struct s => .ok ⟨deriveFields s.fieldList 0, deriveTableName s⟩
  | _ => .error .errInvalidModel

/-- The process-wide caches touched (or, for the table-name cache,
conspicuously not touched) by metadata derivation: `structCache`
(src/sqlblade/scanner.go line 25) and `globalTableNameCache`
(src/sqlblade/performance.go lines 57-78, defined with get/set but never
called from getStructInfo or anywhere else). -/
structure DeriveState where
  structCache : List (RType × StructInfo)
  tableNameCache : List (String × String)
deriving DecidableEq, Repr

/-- getStructInfo with its cache interactions (src/sqlblade/scanner.go
lines 28-96): check structCache after the struct test; on a hit return the
cached info; on a miss invoke the TableName method when present (the last
component counts these invocations), derive, and store in structCache.
The secondary table-name cache is never read or written — exactly as in
the source, where globalTableNameCache has no call sites. -/
def getStructInfoS (st : DeriveState) (typ : RType) :
    Except GoError (StructInfo × DeriveState × Nat) :=
  match unwrapOnePtr typ with
  | .struct s =>
    match (st.structCache.find? (fun p => p.1 == RType.struct s)).map Prod.snd with
    | some info => .ok (info, st, 0)
    | none =>
      let invocations := match s.tableNameMethod with | some _ => 1 | none => 0
      let info : StructInfo := ⟨deriveFields s.fieldList 0, deriveTableName s⟩
      .ok (info, ⟨(RType.struct s, info) :: st.structCache, st.tableNameCache⟩,
        invocations)
  | _ => .error .errInvalidModel

/-! ## Row scanning -/

/-- A result set: column names, one entry per row (`.error` = rows.Scan
fails on that row), and the terminal rows.Err() state. -/
structure Rows where
  columns : List String
  entries : List (Except GoError (List (Option RValue)))
  finalErr : Option GoError

/-- A record value: one slot per declared field, in declaration order. -/
abbrev Record := List Slot

/-- A Go slice, distinguishing nil from empty. -/
abbrev GoSlice (α : Type) := Option (List α)

def zeroSlot (f : StructField) : Slot :=
  if f.isPtrType then .pointer none else .direct (zeroVal f.kind)

def zeroRecord (s : StructType) : Record :=
  s.fieldList.map zeroSlot

def recordZeroOf (typ : RType) : Record :=
  match unwrapOnePtr typ with
  | .struct s => zeroRecord s
  | _ => []

/-- The column-name-to-index map both scan paths consult: keys are the
lower-cased column names, a duplicate key keeping the last index written
(Go map assignment).  scanRows builds it inline (src/sqlblade/scanner.go
lines 126-129); scanRowsOptimized obtains the identical mapping through
columnMapCache.getColumnMap (src/sqlblade/scanner_optimized.go lines
161-181, with cachedToLower = strings.ToLower). -/
def buildColumnMap (columns : List String) : List (String × Nat) :=
  columns.enum.map (fun p => (goToLower p.2, p.1))

def goMapLookup (m : List (String × Nat)) (k : String) : Option Nat :=
  (m.reverse.find? (fun p => p.1 == k)).map Prod.snd

/-- The per-row field loop shared by both scan paths
(src/sqlblade/scanner.go lines 147-170; src/sqlblade/scanner_optimized.go
lines 212-234).  The single difference between the paths is the key used
for the column lookup: scanRows lower-cases field.dbColumn at every scan
(`lower = true`), while the current scanRowsOptimized looks the stored
dbColumn up verbatim (`lower = false`).  A nil raw value zeroes pointer
fields and skips the rest; otherwise setFieldValue runs (its `.error` is a
propagating panic). -/
def applyFields (lower : Bool) (cmap : List (String × Nat))
    (row : List (Option RValue)) :
    List FieldInfo → Record → Except String Record
  | [], r0 => .ok r0
  | f :: fs, r0 =>
    let key := if lower then goToLower f.dbColumn else f.dbColumn
    match goMapLookup cmap key with
    | none => applyFields lower cmap row fs r0
    | some colIdx =>
      match row.getD colIdx none with
      | none =>
        let r1 := if f.isPtr then r0.set f.index (Slot.pointer none) else r0
        applyFields lower cmap row fs r1
      | some v =>
        match setFieldValue (r0.getD f.index (Slot.direct (zeroVal f.fieldKind)))
            f.fieldKind (some v) with
        | .error p => .error p
        | .ok slot => applyFields lower cmap row fs (r0.set f.index slot)

def sliceAppend (s : GoSlice Record) (r : Record) : GoSlice Record :=
  some (s.getD [] ++ [r])

/-- The `for rows.Next()` loop plus the terminal rows.Err() check shared
by both scan paths.  A row whose Scan fails aborts with `(nil, err)`
(wrapped with the "failed to scan row" context on the optimized path);
after the loop a pending terminal error also yields `(nil, err)`. -/
def scanLoop (lower : Bool) (zero : Record) (fields : List FieldInfo)
    (cmap : List (String × Nat)) (finalErr : Option GoError) (wrapScan : Bool) :
    List (Except GoError (List (Option RValue))) → GoSlice Record →
      Except String (GoSlice Record × Option GoError)
  | [], acc =>
    match finalErr with
    | some e => .ok (none, some e)
    | none => .ok (acc, none)
  | entry :: rest, acc =>
    match entry with
    | .error e => .ok (none, some (if wrapScan then GoError.wrapScanRow e else e))
    | .ok row =>
      match applyFields lower cmap row fields zero with
      | .error p => .error p
      | .ok r1 =>
        scanLoop lower zero fields cmap finalErr wrapScan rest (sliceAppend acc r1)

/-- scanRows (src/sqlblade/scanner.go lines 111-180): the accumulator
starts as a nil slice (`var result []T`), the column lookup lower-cases
the declared column at every scan, and scan errors propagate unwrapped. -/
def scanRows (typ : RType) (r : Rows) :
    Except String (GoSlice Record × Option GoError) :=
  match getStructInfo typ with
  | .error e => .ok (none, some e)
  | .ok info =>
    scanLoop true (recordZeroOf typ) info.fields (buildColumnMap r.columns)
      r.finalErr false r.entries none

/-- scanRowsOptimized (src/sqlblade/scanner_optimized.go lines 183-244):
the accumulator starts as an allocated empty slice
(`make([]T, 0, resultInitialCapacity)`), the stored dbColumn is looked up
verbatim, and scan errors are wrapped. -/
def scanRowsOptimized (typ : RType) (r : Rows) :
    Except String (GoSlice Record × Option GoError) :=
  match getStructInfo typ with
  | .error e => .ok (none, some e)
  | .ok info =>
    scanLoop false (recordZeroOf typ) info.fields (buildColumnMap r.columns)
      r.finalErr true r.entries (some [])

/-- scanRow (src/sqlblade/scanner.go lines 183-193): scan the whole result
set via scanRows, return the zero record with the error on failure, the
zero record with ErrNoRows when the accumulated sequence is empty, and
element 0 otherwise. -/
def scanRow (typ : RType) (r : Rows) : Except String (Record × Option GoError) :=
  match scanRows typ r with
  | .error p => .error p
  | .ok (_, some e) => .ok (recordZeroOf typ, some e)
  | .ok (results, none) =>
    if (results.getD []).length = 0 then .ok (recordZeroOf typ, some GoError.errNoRows)
    else .ok ((results.getD []).headD (recordZeroOf typ), none)

/-- RawQuery.First (src/unnamed/part_001 lines 79-89): Execute delegates
row consumption to scanRows, then First returns the zero record with the
error on failure, ErrNoRows when the sequence is empty, and element 0
otherwise. -/
def rawFirst (typ : RType) (r : Rows) : Except String (Record × Option GoError) :=
  match scanRows typ r with
  | .error p => .error p
  | .ok (_, some e) => .ok (recordZeroOf typ, some e)
  | .ok (results, none) =>
    if (results.getD []).length = 0 then .ok (recordZeroOf typ, some GoError.errNoRows)
    else .ok ((results.getD []).headD (recordZeroOf typ), none)

/-! ## Support lemmas about the WHERE assembly -/

theorem string_append_eq_empty_iff (a b : String) :
    a ++ b = "" ↔ a = "" ∧ b = "" := by
  cases a with | mk la =>
  cases b with | mk lb =>
  constructor
  · intro h
    have h2 : la ++ lb = [] := by
      have := congrArg String.data h
      simpa using this
    rcases List.append_eq_nil.mp h2 with ⟨h3, h4⟩
    exact ⟨by simp [h3], by simp [h4]⟩
  · rintro ⟨ha, hb⟩
    have h3 : la = [] := by have := congrArg String.data ha; simpa using this
    have h4 : lb = [] := by have := congrArg String.data hb; simpa using this
    simp [h3, h4]

theorem range'_append_consec (s m n : Nat) :
    List.range' s m ++ List.range' (s + m) n = List.range' s (m + n) := by
  simp [Nat.add_comm]

theorem inListLoop_paramIndex (d : Dialect) (values : List GoDyn) (n : Nat) :
    (inListLoop d values n).2.2.1 = n + values.length := by
  induction values generalizing n with
  | nil => simp [inListLoop]
  | cons v rest ih => simp [inListLoop, ih]; omega

theorem inListLoop_trace_fst (d : Dialect) (values : List GoDyn) (n : Nat) :
    (inListLoop d values n).2.2.2.map Prod.fst = List.range' (n + 1) values.length := by
  induction values generalizing n with
  | nil => simp [inListLoop]
  | cons v rest ih => simp [inListLoop, ih, List.range']

theorem inListLoop_args_eq_trace_snd (d : Dialect) (values : List GoDyn) (n : Nat) :
    (inListLoop d values n).2.1 = (inListLoop d values n).2.2.2.map Prod.snd := by
  induction values generalizing n with
  | nil => simp [inListLoop]
  | cons v rest ih => simp [inListLoop, ih]

theorem renderCondition_paramIndex (d : Dialect) (c : WhereClause) (op : String)
    (n : Nat) : n ≤ (renderCondition d c op n).2.2.1 := by
  unfold renderCondition
  split
  · simp
  · split
    · rename_i v
      match h : c.Value with
      | GoDyn.vlist values =>
        simp [h]
        split
        · simp [inListLoop_paramIndex]
        · simp
      | GoDyn.vscalar t => simp [h]
    · split
      · match h : c.Value with
        | GoDyn.vlist values =>
          simp [h]
          match values with
          | [] => simp
          | [v1] => simp
          | [v1, v2] => simp; omega
          | v1 :: v2 :: v3 :: vs => simp
        | GoDyn.vscalar t => simp [h]
      · simp

theorem renderCondition_spec (d : Dialect) (c : WhereClause) (op : String) (n : Nat) :
    n ≤ (renderCondition d c op n).2.2.1 ∧
    (renderCondition d c op n).2.2.2.map Prod.fst =
      List.range' (n + 1) ((renderCondition d c op n).2.2.1 - n) ∧
    (renderCondition d c op n).2.1 = (renderCondition d c op n).2.2.2.map Prod.snd ∧
    ((renderCondition d c op n).1 = "" →
      (renderCondition d c op n).2.1 = [] ∧ (renderCondition d c op n).2.2.1 = n ∧
      (renderCondition d c op n).2.2.2 = []) := by
  unfold renderCondition
  split
  · refine ⟨le_refl n, by simp, by simp, ?_⟩
    intro h
    rcases (string_append_eq_empty_iff _ _).mp h with ⟨h1, h2⟩
    rcases (string_append_eq_empty_iff _ _).mp h1 with ⟨h3, h4⟩
    exact absurd h4 (by decide)
  · split
    · match hv : c.Value with
      | GoDyn.vlist values =>
        simp only [hv]
        split
        · refine ⟨by simp [inListLoop_paramIndex], ?_, by simp [inListLoop_args_eq_trace_snd], ?_⟩
          · simp [inListLoop_paramIndex, inListLoop_trace_fst]
          · intro h
            rcases (string_append_eq_empty_iff _ _).mp h with ⟨h1, h2⟩
            exact absurd h2 (by decide)
        · exact ⟨le_refl n, by simp, by simp, fun _ => by simp⟩
      | GoDyn.vscalar t =>
        simp only [hv]
        exact ⟨le_refl n, by simp, by simp, fun _ => by simp⟩
    · split
      · match hv : c.Value with
        | GoDyn.vlist values =>
          simp only [hv]
          match values with
          | [] => exact ⟨le_refl n, by simp, by simp, fun _ => by simp⟩
          | [v1] => exact ⟨le_refl n, by simp, by simp, fun _ => by simp⟩
          | [v1, v2] =>
            refine ⟨by simp; omega, ?_, by simp, ?_⟩
            · have h2 : n + 1 + 1 - n = 2 := by omega
              simp [h2, List.range']
            · intro h
              rcases (string_append_eq_empty_iff _ _).mp h with ⟨h1, h2⟩
              rcases (string_append_eq_empty_iff _ _).mp h1 with ⟨h3, h4⟩
              exact absurd h4 (by decide)
          | v1 :: v2 :: v3 :: vs =>
            exact ⟨le_refl n, by simp, by simp, fun _ => by simp⟩
        | GoDyn.vscalar t =>
          simp only [hv]
          exact ⟨le_refl n, by simp, by simp, fun _ => by simp⟩
      · refine ⟨by simp, ?_, by simp, ?_⟩
        · have h2 : n + 1 - n = 1 := by omega
          simp [h2, List.range']
        · intro h
          rcases (string_append_eq_empty_iff _ _).mp h with ⟨h1, h2⟩
          rcases (string_append_eq_empty_iff _ _).mp h1 with ⟨h3, h4⟩
          exact absurd h4 (by decide)

theorem whereLoop_spec (d : Dialect) (cl : List WhereClause) (i n : Nat) :
    n ≤ (whereLoop d cl i n).paramIndex ∧
    (whereLoop d cl i n).trace.map Prod.fst =
      List.range' (n + 1) ((whereLoop d cl i n).paramIndex - n) ∧
    (whereLoop d cl i n).args = (whereLoop d cl i n).trace.map Prod.snd ∧
    ((whereLoop d cl i n).parts = [] ↔ (whereLoop d cl i n).conds = []) ∧
    ((whereLoop d cl i n).parts = [] →
      (whereLoop d cl i n).trace = [] ∧ (whereLoop d cl i n).args = [] ∧
      (whereLoop d cl i n).paramIndex = n) := by
  induction cl generalizing i n with
  | nil => simp [whereLoop]
  | cons c rest ih =>
    by_cases hv : isValidOperator (goToUpper (goTrimSpace c.Operator)) = true
    · have hrc := renderCondition_spec d c (goToUpper (goTrimSpace c.Operator)) n
      obtain ⟨hrc1, hrc2, hrc3, hrc4⟩ := hrc
      set m := (renderCondition d c (goToUpper (goTrimSpace c.Operator)) n).2.2.1 with hm
      have htail := ih (i + 1) m
      obtain ⟨ht1, ht2, ht3, ht4, ht5⟩ := htail
      set p := (whereLoop d rest (i + 1) m).paramIndex with hp
      have hunfold : whereLoop d (c :: rest) i n =
          ⟨(if (renderCondition d c (goToUpper (goTrimSpace c.Operator)) n).1 ≠ "" then
              (if i > 0 then [if c.And then "AND" else "OR"] else []) ++
                [(renderCondition d c (goToUpper (goTrimSpace c.Operator)) n).1]
            else []) ++ (whereLoop d rest (i + 1) m).parts,
            (renderCondition d c (goToUpper (goTrimSpace c.Operator)) n).2.1 ++
              (whereLoop d rest (i + 1) m).args,
            p,
            (renderCondition d c (goToUpper (goTrimSpace c.Operator)) n).2.2.2 ++
              (whereLoop d rest (i + 1) m).trace,
            (if (renderCondition d c (goToUpper (goTrimSpace c.Operator)) n).1 ≠ "" then
              [(renderCondition d c (goToUpper (goTrimSpace c.Operator)) n).1] else []) ++
              (whereLoop d rest (i + 1) m).conds⟩ := by
        rw [whereLoop]
        simp only [hv, if_true, hm, hp]
      rw [hunfold]
      refine ⟨le_trans hrc1 ht1, ?_, ?_, ?_, ?_⟩
      · simp only [List.map_append, hrc2, ht2]
        have e1 : m + 1 = (n + 1) + (m - n) := by omega
        have e2 : p - n = (m - n) + (p - m) := by omega
        rw [e2, ← range'_append_consec (n + 1) (m - n) (p - m), ← e1]
      · simp only [List.map_append, hrc3, ht3]
      · constructor
        · intro h
          rcases List.append_eq_nil.mp h with ⟨h1, h2⟩
          have hc : (renderCondition d c (goToUpper (goTrimSpace c.Operator)) n).1 = "" := by
            by_contra hne
            simp [hne] at h1
          simp [hc, ht4.mp h2]
        · intro h
          rcases List.append_eq_nil.mp h with ⟨h1, h2⟩
          have hc : (renderCondition d c (goToUpper (goTrimSpace c.Operator)) n).1 = "" := by
            by_contra hne
            simp [hne] at h1
          simp [hc, ht4.mpr h2]
      · intro h
        rcases List.append_eq_nil.mp h with ⟨h1, h2⟩
        have hc : (renderCondition d c (goToUpper (goTrimSpace c.Operator)) n).1 = "" := by
          by_contra hne
          simp [hne] at h1
        obtain ⟨hc1, hc2, hc3⟩ := hrc4 hc
        obtain ⟨hw1, hw2, hw3⟩ := ht5 h2
        refine ⟨by simp [hc3, hw1], by simp [hc1, hw2], ?_⟩
        rw [hw3, ← hc2]
    · have hunfold : whereLoop d (c :: rest) i n = whereLoop d rest (i + 1) n := by
        rw [whereLoop]
        simp only [hv]
        simp
      rw [hunfold]
      exact ih (i + 1) n

theorem whereLoop_cons_valid (d : Dialect) (c : WhereClause) (rest : List WhereClause)
    (i n : Nat) (hv : isValidOperator (goToUpper (goTrimSpace c.Operator)) = true) :
    whereLoop d (c :: rest) i n =
      ⟨(if (renderCondition d c (goToUpper (goTrimSpace c.Operator)) n).1 ≠ "" then
          (if i > 0 then [if c.And then "AND" else "OR"] else []) ++
            [(renderCondition d c (goToUpper (goTrimSpace c.Operator)) n).1]
        else []) ++
        (whereLoop d rest (i + 1)
          (renderCondition d c (goToUpper (goTrimSpace c.Operator)) n).2.2.1).parts,
        (renderCondition d c (goToUpper (goTrimSpace c.Operator)) n).2.1 ++
          (whereLoop d rest (i + 1)
            (renderCondition d c (goToUpper (goTrimSpace c.Operator)) n).2.2.1).args,
        (whereLoop d rest (i + 1)
          (renderCondition d c (goToUpper (goTrimSpace c.Operator)) n).2.2.1).paramIndex,
        (renderCondition d c (goToUpper (goTrimSpace c.Operator)) n).2.2.2 ++
          (whereLoop d rest (i + 1)
            (renderCondition d c (goToUpper (goTrimSpace c.Operator)) n).2.2.1).trace,
        (if (renderCondition d c (goToUpper (goTrimSpace c.Operator)) n).1 ≠ "" then
          [(renderCondition d c (goToUpper (goTrimSpace c.Operator)) n).1] else []) ++
          (whereLoop d rest (i + 1)
            (renderCondition d c (goToUpper (goTrimSpace c.Operator)) n).2.2.1).conds⟩ := by
  rw [whereLoop]
  simp only [hv, if_true]

theorem whereLoop_cons_invalid (d : Dialect) (c : WhereClause) (rest : List WhereClause)
    (i n : Nat) (hv : isValidOperator (goToUpper (goTrimSpace c.Operator)) = false) :
    whereLoop d (c :: rest) i n = whereLoop d rest (i + 1) n := by
  rw [whereLoop]
  simp only [hv]
  simp

theorem whereLoop_index_indep (d : Dialect) (cl : List WhereClause) (i j n : Nat) :
    (whereLoop d cl i n).args = (whereLoop d cl j n).args ∧
    (whereLoop d cl i n).trace = (whereLoop d cl j n).trace ∧
    (whereLoop d cl i n).paramIndex = (whereLoop d cl j n).paramIndex ∧
    (whereLoop d cl i n).conds = (whereLoop d cl j n).conds := by
  induction cl generalizing i j n with
  | nil => simp [whereLoop]
  | cons c rest ih =>
    by_cases hv : isValidOperator (goToUpper (goTrimSpace c.Operator)) = true
    · rw [whereLoop_cons_valid d c rest i n hv, whereLoop_cons_valid d c rest j n hv]
      obtain ⟨h1, h2, h3, h4⟩ := ih (i + 1) (j + 1)
        (renderCondition d c (goToUpper (goTrimSpace c.Operator)) n).2.2.1
      exact ⟨by simp [h1], by simp [h2], by simp [h3], by simp [h4]⟩
    · rw [whereLoop_cons_invalid d c rest i n (by simpa using hv),
        whereLoop_cons_invalid d c rest j n (by simpa using hv)]
      exact ih (i + 1) (j + 1) n

theorem whereLoop_erase_invalid (d : Dialect) (pre : List WhereClause) (c : WhereClause)
    (post : List WhereClause) (i n : Nat)
    (h : isValidOperator (goToUpper (goTrimSpace c.Operator)) = false) :
    (whereLoop d (pre ++ c :: post) i n).args = (whereLoop d (pre ++ post) i n).args ∧
    (whereLoop d (pre ++ c :: post) i n).trace = (whereLoop d (pre ++ post) i n).trace ∧
    (whereLoop d (pre ++ c :: post) i n).paramIndex =
      (whereLoop d (pre ++ post) i n).paramIndex ∧
    (whereLoop d (pre ++ c :: post) i n).conds = (whereLoop d (pre ++ post) i n).conds := by
  induction pre generalizing i n with
  | nil =>
    simp only [List.nil_append]
    rw [whereLoop_cons_invalid d c post i n h]
    exact whereLoop_index_indep d post (i + 1) i n
  | cons p pre' ih =>
    simp only [List.cons_append]
    by_cases hv : isValidOperator (goToUpper (goTrimSpace p.Operator)) = true
    · rw [whereLoop_cons_valid d p (pre' ++ c :: post) i n hv,
        whereLoop_cons_valid d p (pre' ++ post) i n hv]
      obtain ⟨h1, h2, h3, h4⟩ := ih (i + 1)
        (renderCondition d p (goToUpper (goTrimSpace p.Operator)) n).2.2.1
      exact ⟨by simp [h1], by simp [h2], by simp [h3], by simp [h4]⟩
    · rw [whereLoop_cons_invalid d p (pre' ++ c :: post) i n (by simpa using hv),
        whereLoop_cons_invalid d p (pre' ++ post) i n (by simpa using hv)]
      exact ih (i + 1) n

theorem buildWhereClause_paramIndex (d : Dialect) (cl : List WhereClause) (n : Nat) :
    (buildWhereClause d cl n).2.2 = (whereLoop d cl 0 n).paramIndex := by
  simp only [buildWhereClause]
  split <;> rfl

theorem buildWhereClause_sql_empty_iff (d : Dialect) (cl : List WhereClause) (n : Nat) :
    (buildWhereClause d cl n).1 = "" ↔ (whereLoop d cl 0 n).parts = [] := by
  simp only [buildWhereClause]
  split
  · rename_i h
    simpa using List.isEmpty_iff.mp h
  · rename_i h
    constructor
    · intro he
      rcases (string_append_eq_empty_iff _ _).mp he with ⟨h1, _⟩
      exact absurd h1 (by decide)
    · intro hp
      exact absurd (List.isEmpty_iff.mpr hp) (by simpa using h)

theorem buildWhereClause_args_eq (d : Dialect) (cl : List WhereClause) (n : Nat) :
    (buildWhereClause d cl n).2.1 = (whereLoop d cl 0 n).args := by
  simp only [buildWhereClause]
  split
  · rename_i h
    obtain ⟨_, hargs, _⟩ := (whereLoop_spec d cl 0 n).2.2.2.2 (List.isEmpty_iff.mp h)
    exact hargs.symm
  · rfl

/-! ## Claim theorems about the WHERE assembly -/

/-- **C4** (code bug).  The combinator between clauses is guarded by `i > 0`
on the clause's position in the ORIGINAL list, not on whether a previous
clause actually emitted a fragment.  Evaluating the embedded
buildWhereClause at a list whose first clause has an invalid operator and
whose second is valid yields a fragment that begins with a dangling AND
directly after the WHERE keyword — the claim requires this not to happen.
(The all-skipped part of the claim does hold: a list whose only clause is
skipped yields the empty fragment.) -/
theorem buildWhereClause_dangling_and_bug :
    (buildWhereClause PostgreSQL
      [⟨"status", "INVALID", GoDyn.vscalar "x", true⟩,
       ⟨"age", "=", GoDyn.vscalar "y", true⟩] 0).1 = "WHERE AND \"age\" = $1" ∧
    (buildWhereClause PostgreSQL
      [⟨"status", "INVALID", GoDyn.vscalar "x", true⟩] 0).1 = "" := by
  exact ⟨rfl, rfl⟩

/-- **C6** (confirmed).  A clause whose operator normalizes outside the
whitelist contributes nothing: alone it yields an empty fragment, no bound
argument and an unchanged parameter counter; inserted anywhere in a clause
list it leaves the bound arguments, the placeholder emission trace (hence
the numbering of every subsequent valid clause's placeholders), the final
shared counter, and the emitted condition fragments exactly as if it were
absent — and the builder signals no error (it is total by construction). -/
theorem invalidOperator_contributes_nothing (d : Dialect) (pre post : List WhereClause)
    (c : WhereClause) (n : Nat)
    (h : isValidOperator (goToUpper (goTrimSpace c.Operator)) = false) :
    buildWhereClause d [c] n = ("", [], n) ∧
    (whereLoop d (pre ++ c :: post) 0 n).args = (whereLoop d (pre ++ post) 0 n).args ∧
    (whereLoop d (pre ++ c :: post) 0 n).trace = (whereLoop d (pre ++ post) 0 n).trace ∧
    (whereLoop d (pre ++ c :: post) 0 n).paramIndex =
      (whereLoop d (pre ++ post) 0 n).paramIndex ∧
    (whereLoop d (pre ++ c :: post) 0 n).conds = (whereLoop d (pre ++ post) 0 n).conds := by
  refine ⟨?_, whereLoop_erase_invalid d pre c post 0 n h⟩
  have h1 : whereLoop d [c] 0 n = ⟨[], [], n, [], []⟩ := by
    rw [whereLoop_cons_invalid d c [] 0 n h, whereLoop]
  simp [buildWhereClause, h1]

theorem invalidOperator_contributes_nothing_witness :
    buildWhereClause PostgreSQL
      [⟨"x", "LIKEE", GoDyn.vscalar "v", true⟩] 3 = ("", [], 3) ∧
    (whereLoop PostgreSQL
      [⟨"a", "=", GoDyn.vscalar "p", true⟩, ⟨"x", "LIKEE", GoDyn.vscalar "v", true⟩,
       ⟨"b", ">", GoDyn.vscalar "q", false⟩] 0 3).args =
      (whereLoop PostgreSQL
        [⟨"a", "=", GoDyn.vscalar "p", true⟩, ⟨"b", ">", GoDyn.vscalar "q", false⟩] 0 3).args ∧
    (whereLoop PostgreSQL
      [⟨"a", "=", GoDyn.vscalar "p", true⟩, ⟨"x", "LIKEE", GoDyn.vscalar "v", true⟩,
       ⟨"b", ">", GoDyn.vscalar "q", false⟩] 0 3).trace =
      (whereLoop PostgreSQL
        [⟨"a", "=", GoDyn.vscalar "p", true⟩, ⟨"b", ">", GoDyn.vscalar "q", false⟩] 0 3).trace ∧
    (whereLoop PostgreSQL
      [⟨"a", "=", GoDyn.vscalar "p", true⟩, ⟨"x", "LIKEE", GoDyn.vscalar "v", true⟩,
       ⟨"b", ">", GoDyn.vscalar "q", false⟩] 0 3).paramIndex =
      (whereLoop PostgreSQL
        [⟨"a", "=", GoDyn.vscalar "p", true⟩, ⟨"b", ">", GoDyn.vscalar "q", false⟩] 0 3).paramIndex ∧
    (whereLoop PostgreSQL
      [⟨"a", "=", GoDyn.vscalar "p", true⟩, ⟨"x", "LIKEE", GoDyn.vscalar "v", true⟩,
       ⟨"b", ">", GoDyn.vscalar "q", false⟩] 0 3).conds =
      (whereLoop PostgreSQL
        [⟨"a", "=", GoDyn.vscalar "p", true⟩, ⟨"b", ">", GoDyn.vscalar "q", false⟩] 0 3).conds :=
  invalidOperator_contributes_nothing PostgreSQL
    [⟨"a", "=", GoDyn.vscalar "p", true⟩] [⟨"b", ">", GoDyn.vscalar "q", false⟩]
    ⟨"x", "LIKEE", GoDyn.vscalar "v", true⟩ 3 (by rfl)

/-- **C5** (confirmed).  Across one statement's combined WHERE and HAVING
build, with the shared parameter counter starting at 0, the emission trace
of placeholder indices is exactly 1, 2, ..., k with no gap and no reset
between the two fragments, and the argument list produced by the
statement-level build equals the trace's arguments in emission order, so
bound arguments appear in the same order as their placeholders. -/
theorem wherePlusHavingPlaceholdersMonotone (d : Dialect)
    (wcs hcs : List WhereClause) :
    (filtersTrace d wcs hcs).map Prod.fst =
      List.range' 1 (filtersTrace d wcs hcs).length ∧
    (buildSQLFilters d wcs hcs).2 = (filtersTrace d wcs hcs).map Prod.snd := by
  obtain ⟨hW1, hW2, hW3, hW4, hW5⟩ := whereLoop_spec d wcs 0 0
  obtain ⟨hH1, hH2, hH3, hH4, hH5⟩ :=
    whereLoop_spec d hcs 0 (whereLoop d wcs 0 0).paramIndex
  have hWlen : (whereLoop d wcs 0 0).trace.length = (whereLoop d wcs 0 0).paramIndex := by
    have := congrArg List.length hW2
    simpa using this
  have hHlen : (whereLoop d hcs 0 (whereLoop d wcs 0 0).paramIndex).trace.length =
      (whereLoop d hcs 0 (whereLoop d wcs 0 0).paramIndex).paramIndex -
        (whereLoop d wcs 0 0).paramIndex := by
    have := congrArg List.length hH2
    simpa using this
  have hbwW_args : (buildWhereClause d wcs 0).2.1 = (whereLoop d wcs 0 0).args :=
    buildWhereClause_args_eq d wcs 0
  have hbwW_pi : (buildWhereClause d wcs 0).2.2 = (whereLoop d wcs 0 0).paramIndex :=
    buildWhereClause_paramIndex d wcs 0
  have hbwH_args : (buildWhereClause d hcs (buildWhereClause d wcs 0).2.2).2.1 =
      (whereLoop d hcs 0 (whereLoop d wcs 0 0).paramIndex).args := by
    rw [hbwW_pi]
    exact buildWhereClause_args_eq d hcs (whereLoop d wcs 0 0).paramIndex
  by_cases hlen : hcs.length > 0
  · have hFT : filtersTrace d wcs hcs =
        (whereLoop d wcs 0 0).trace ++
          (whereLoop d hcs 0 (whereLoop d wcs 0 0).paramIndex).trace := by
      simp [filtersTrace, hlen]
    constructor
    · rw [hFT]
      simp only [List.map_append, hW2, hH2, List.length_append, hWlen, hHlen]
      have e0 : (0 : Nat) + 1 = 1 := rfl
      have e1 : (whereLoop d wcs 0 0).paramIndex + 1 =
          1 + ((whereLoop d wcs 0 0).paramIndex - 0) := by omega
      rw [e1, ← range'_append_consec]
      congr 1
    · have hsnd : ((whereLoop d wcs 0 0).trace ++
          (whereLoop d hcs 0 (whereLoop d wcs 0 0).paramIndex).trace).map Prod.snd =
          (whereLoop d wcs 0 0).args ++
            (whereLoop d hcs 0 (whereLoop d wcs 0 0).paramIndex).args := by
        simp only [List.map_append, ← hW3, ← hH3]
      rw [hFT, hsnd]
      simp only [buildSQLFilters]
      by_cases e1 : (buildWhereClause d wcs 0).1 = ""
      · have hpartsW : (whereLoop d wcs 0 0).parts = [] :=
          (buildWhereClause_sql_empty_iff d wcs 0).mp e1
        obtain ⟨_, hargsW, _⟩ := hW5 hpartsW
        by_cases e2 : (buildWhereClause d hcs (buildWhereClause d wcs 0).2.2).1 = ""
        · have hpartsH : (whereLoop d hcs 0 (whereLoop d wcs 0 0).paramIndex).parts = [] := by
            rw [hbwW_pi] at e2
            exact (buildWhereClause_sql_empty_iff d hcs
              (whereLoop d wcs 0 0).paramIndex).mp e2
          obtain ⟨_, hargsH, _⟩ := hH5 hpartsH
          simp [hlen, e1, e2, hargsW, hargsH]
        · simp [hlen, e1, e2, hargsW, hbwH_args]
      · by_cases e2 : (buildWhereClause d hcs (buildWhereClause d wcs 0).2.2).1 = ""
        · have hpartsH : (whereLoop d hcs 0 (whereLoop d wcs 0 0).paramIndex).parts = [] := by
            rw [hbwW_pi] at e2
            exact (buildWhereClause_sql_empty_iff d hcs
              (whereLoop d wcs 0 0).paramIndex).mp e2
          obtain ⟨_, hargsH, _⟩ := hH5 hpartsH
          simp [hlen, e1, e2, hbwW_args, hargsH]
        · simp [hlen, e1, e2, hbwW_args, hbwH_args]
  · have hFT : filtersTrace d wcs hcs = (whereLoop d wcs 0 0).trace ++ [] := by
      simp [filtersTrace, hlen]
    constructor
    · rw [hFT]
      simp only [List.append_nil, hW2, List.length_append, hWlen]
      simp
    · simp only [buildSQLFilters]
      rw [hFT]
      simp only [List.append_nil, ← hW3]
      by_cases e1 : (buildWhereClause d wcs 0).1 = ""
      · have hpartsW : (whereLoop d wcs 0 0).parts = [] :=
          (buildWhereClause_sql_empty_iff d wcs 0).mp e1
        obtain ⟨_, hargsW, _⟩ := hW5 hpartsW
        simp [hlen, e1, hargsW]
      · simp [hlen, e1, hbwW_args]

/-! ## Claim theorems about the scanner -/

/-- **C1** (code bug).  For a field annotated with the mixed-case column
name "UserName": metadata derivation stores the column name exactly as
written — it is NOT lower-cased at derivation time — and while the
scanRows path (which lower-cases at every scan) populates the field from a
result-set column named "username", the current scanRowsOptimized path
looks the stored mixed-case name up verbatim in the lower-cased column
map, never finds it, and leaves the field at its zero value.  Matching is
therefore not case-insensitive in every scan path, contrary to the claim. -/
theorem mixedCaseColumn_matching_bug :
    getStructInfo (RType.struct ⟨"User", none,
        [⟨"UserName", true, "UserName", false, Kind.kstring⟩]⟩) =
      .ok ⟨[⟨"UserName", "UserName", 0, false, Kind.kstring⟩], "user"⟩ ∧
    scanRows (RType.struct ⟨"User", none,
        [⟨"UserName", true, "UserName", false, Kind.kstring⟩]⟩)
      ⟨["username"], [.ok [some (.vstring "alice")]], none⟩ =
      .ok (some [[.direct (.fstring "alice")]], none) ∧
    scanRowsOptimized (RType.struct ⟨"User", none,
        [⟨"UserName", true, "UserName", false, Kind.kstring⟩]⟩)
      ⟨["username"], [.ok [some (.vstring "alice")]], none⟩ =
      .ok (some [[.direct (.fstring "")]], none) :=
  ⟨rfl, rfl, rfl⟩

/-- **C2** counterexample.  Coercing the negative 64-bit integer -42 into
a uint64 field does not leave the field at its zero value: the code
converts with uint64(val.Int()), so the field reads back as 2^64 - 42. -/
theorem negativeIntToUint_not_zero :
    setFieldValue (.direct (.fuint 0)) .kuint64 (some (.vint (-42))) =
      .ok (.direct (.fuint 18446744073709551574)) ∧
    (18446744073709551574 : Nat) ≠ 0 :=
  ⟨rfl, by decide⟩

/-- **C2** as amended.  Unsigned targets do not reject negative 64-bit
integer sources: for every negative in-range int64 value i, coercion into
a uint64 field stores the two's-complement reinterpretation 2^64 + i — a
non-zero value — rather than dropping the assignment and leaving zero. -/
theorem negativeIntToUint_wraps (i : Int) (h1 : -(2 ^ 63) ≤ i) (h2 : i < 0) :
    setFieldValue (.direct (.fuint 0)) .kuint64 (some (.vint i)) =
      .ok (.direct (.fuint ((2 ^ 64 + i).toNat))) ∧
    (2 ^ 64 + i).toNat ≠ 0 := by
  have hbase : setFieldValue (.direct (.fuint 0)) .kuint64 (some (.vint i)) =
      .ok (.direct (.fuint (toUint64 i % 2 ^ 64))) := rfl
  have hp : (2 : Int) ^ 64 = 18446744073709551616 := by norm_num
  have hp63 : (2 : Int) ^ 63 = 9223372036854775808 := by norm_num
  have hpn : (2 : Nat) ^ 64 = 18446744073709551616 := by norm_num
  have hmod : i % ((2 : Int) ^ 64) = 2 ^ 64 + i := by
    rw [hp] at *
    omega
  have htu : toUint64 i = (2 ^ 64 + i).toNat := by
    unfold toUint64
    rw [hmod]
  have hlt : (2 ^ 64 + i).toNat < 2 ^ 64 := by
    rw [hp] at *
    rw [hpn]
    omega
  refine ⟨?_, ?_⟩
  · rw [hbase, htu, Nat.mod_eq_of_lt hlt]
  · rw [hp] at *
    omega

theorem negativeIntToUint_wraps_witness :
    setFieldValue (.direct (.fuint 0)) .kuint64 (some (.vint (-42))) =
      .ok (.direct (.fuint (((2 : Int) ^ 64 + (-42)).toNat))) ∧
    ((2 : Int) ^ 64 + (-42)).toNat ≠ 0 :=
  negativeIntToUint_wraps (-42) (by norm_num) (by norm_num)

/-- **C3** (code bug).  Value coercion is not panic-free for every raw
value and target: a 64-bit integer raw value arriving at a boolean target
field reaches `field.SetBool(val.Bool())`, and reflect.Value.Bool panics
on a non-bool value.  (The string half of the claim does hold: a byte
sequence arriving at a string target goes through reflect.Value.String,
which never panics — it yields the placeholder text instead.) -/
theorem boolCoercion_panics :
    setFieldValue (.direct (.fbool false)) .kbool (some (.vint 1)) =
      .error "reflect: call of reflect.Value.Bool on int64 Value" ∧
    setFieldValue (.direct (.fstring "")) .kstring (some (.vother "[]uint8" "ab")) =
      .ok (.direct (.fstring "<[]uint8 Value>")) :=
  ⟨rfl, rfl⟩

/-- **C7** (confirmed).  A result set with zero rows makes the optimized
scan path return an allocated empty slice — not a nil one — with no
error; the single-row accessor scanRow over the same input fails with
ErrNoRows and hands back the zero record; and whenever the accumulated
sequence is non-empty scanRow instead returns element 0 with no error, so
ErrNoRows arises exactly when the scanned sequence is empty. -/
theorem emptyResult_nonNil_and_noRows (s : StructType) (r : Rows)
    (h1 : r.entries = []) (h2 : r.finalErr = none) :
    scanRowsOptimized (RType.struct s) r = .ok (some [], none) ∧
    scanRow (RType.struct s) r = .ok (zeroRecord s, some GoError.errNoRows) ∧
    (∀ r' res, scanRows (RType.struct s) r' = .ok (res, none) →
      0 < (res.getD []).length →
      scanRow (RType.struct s) r' =
        .ok ((res.getD []).headD (zeroRecord s), none)) := by
  obtain ⟨cols, entries, fe⟩ := r
  have h1' : entries = [] := h1
  have h2' : fe = none := h2
  subst h1'
  subst h2'
  refine ⟨rfl, rfl, ?_⟩
  · intro r' res hscan hlen
    simp only [scanRow, hscan]
    rw [if_neg (by omega)]
    rfl

theorem emptyResult_nonNil_and_noRows_witness :
    scanRowsOptimized (RType.struct ⟨"User", none,
        [⟨"Name", true, "name", false, Kind.kstring⟩]⟩)
      ⟨["name"], [], none⟩ = .ok (some [], none) ∧
    scanRow (RType.struct ⟨"User", none,
        [⟨"Name", true, "name", false, Kind.kstring⟩]⟩)
      ⟨["name"], [], none⟩ =
      .ok (zeroRecord ⟨"User", none, [⟨"Name", true, "name", false, Kind.kstring⟩]⟩,
        some GoError.errNoRows) :=
  ⟨(emptyResult_nonNil_and_noRows ⟨"User", none,
      [⟨"Name", true, "name", false, Kind.kstring⟩]⟩ ⟨["name"], [], none⟩ rfl rfl).1,
   (emptyResult_nonNil_and_noRows ⟨"User", none,
      [⟨"Name", true, "name", false, Kind.kstring⟩]⟩ ⟨["name"], [], none⟩ rfl rfl).2.1⟩

/-! ### Support lemmas for the metadata-failure claim -/

theorem deriveFields_index_ge (fl : List StructField) (start : Nat) :
    ∀ fi ∈ deriveFields fl start, start ≤ fi.index := by
  induction fl generalizing start with
  | nil => simp [deriveFields]
  | cons f rest ih =>
    intro fi hfi
    simp only [deriveFields] at hfi
    split at hfi
    · exact Nat.le_of_succ_le (ih (start + 1) fi hfi)
    · split at hfi
      · exact Nat.le_of_succ_le (ih (start + 1) fi hfi)
      · rcases List.mem_cons.mp hfi with h | h
        · subst h; exact Nat.le_refl start
        · exact Nat.le_of_succ_le (ih (start + 1) fi h)

theorem deriveFields_skipped_absent (fl : List StructField) (start i : Nat)
    (hi : i < fl.length)
    (hskip : (fl.getD i ⟨"", false, "", false, Kind.kint64⟩).exported = false ∨
      (fl.getD i ⟨"", false, "", false, Kind.kint64⟩).dbTag = "" ∨
      (fl.getD i ⟨"", false, "", false, Kind.kint64⟩).dbTag = "-") :
    ∀ fi ∈ deriveFields fl start, fi.index ≠ start + i := by
  induction fl generalizing start i with
  | nil => simp at hi
  | cons f rest ih =>
    intro fi hfi
    match i with
    | 0 =>
      simp only [List.getD_cons_zero] at hskip
      have hout : deriveFields (f :: rest) start = deriveFields rest (start + 1) := by
        simp only [deriveFields]
        by_cases he : f.exported = false
        · rw [if_pos he]
        · rw [if_neg he]
          have ht : f.dbTag = "" ∨ f.dbTag = "-" := by
            rcases hskip with h | h | h
            · exact absurd h he
            · exact Or.inl h
            · exact Or.inr h
          rw [if_pos ht]
      rw [hout] at hfi
      have := deriveFields_index_ge rest (start + 1) fi hfi
      omega
    | j + 1 =>
      simp only [List.getD_cons_succ] at hskip
      have hj : j < rest.length := by simpa using Nat.lt_of_succ_lt_succ hi
      have htail := ih (start + 1) j hj hskip
      simp only [deriveFields] at hfi
      split at hfi
      · have := htail fi hfi; omega
      · split at hfi
        · have := htail fi hfi; omega
        · rcases List.mem_cons.mp hfi with h | h
          · subst h
            show start ≠ start + (j + 1)
            omega
          · have := htail fi h; omega

/-- **C8** (confirmed).  getStructInfo fails, and fails with
ErrInvalidModel, exactly when the input type after one pointer unwrap is
not a struct type; for struct types it always succeeds, and every field
that is unexported, lacks a db tag, or carries the "-" skip marker is
simply absent from the derived field list rather than reported as an
error. -/
theorem invalidModel_exactly_nonStruct (typ : RType) :
    ((∃ s, unwrapOnePtr typ = RType.struct s) →
      ∃ info, getStructInfo typ = .ok info) ∧
    ((∀ s, unwrapOnePtr typ ≠ RType.struct s) →
      getStructInfo typ = .error GoError.errInvalidModel) ∧
    (∀ s, unwrapOnePtr typ = RType.struct s →
      ∀ info, getStructInfo typ = .ok info →
      ∀ i, i < s.fieldList.length →
      ((s.fieldList.getD i ⟨"", false, "", false, Kind.kint64⟩).exported = false ∨
       (s.fieldList.getD i ⟨"", false, "", false, Kind.kint64⟩).dbTag = "" ∨
       (s.fieldList.getD i ⟨"", false, "", false, Kind.kint64⟩).dbTag = "-") →
      ∀ fi ∈ info.fields, fi.index ≠ i) := by
  refine ⟨?_, ?_, ?_⟩
  · rintro ⟨s, hs⟩
    exact ⟨⟨deriveFields s.fieldList 0, deriveTableName s⟩, by simp [getStructInfo, hs]⟩
  · intro hns
    unfold getStructInfo
    match h : unwrapOnePtr typ with
    | .struct s => exact absurd h (hns s)
    | .ptr t => rfl
    | .base k => rfl
  · intro s hs info hinfo i hi hskip fi hfi
    have : info = ⟨deriveFields s.fieldList 0, deriveTableName s⟩ := by
      simp [getStructInfo, hs] at hinfo
      exact hinfo.symm
    subst this
    have := deriveFields_skipped_absent s.fieldList 0 i hi hskip fi hfi
    simpa using this

theorem invalidModel_exactly_nonStruct_witness :
    (∃ info, getStructInfo (RType.struct ⟨"Post", none,
      [⟨"ID", true, "id", false, Kind.kint64⟩,
       ⟨"secret", false, "s", false, Kind.kstring⟩,
       ⟨"Skip", true, "-", false, Kind.kstring⟩,
       ⟨"NoTag", true, "", false, Kind.kstring⟩]⟩) = .ok info) ∧
    getStructInfo (RType.base Kind.kint64) = .error GoError.errInvalidModel ∧
    (∀ fi ∈ (⟨[⟨"ID", "id", 0, false, Kind.kint64⟩], "post"⟩ : StructInfo).fields,
      fi.index ≠ 1) :=
  ⟨(invalidModel_exactly_nonStruct (RType.struct ⟨"Post", none,
      [⟨"ID", true, "id", false, Kind.kint64⟩,
       ⟨"secret", false, "s", false, Kind.kstring⟩,
       ⟨"Skip", true, "-", false, Kind.kstring⟩,
       ⟨"NoTag", true, "", false, Kind.kstring⟩]⟩)).1 ⟨_, rfl⟩,
   (invalidModel_exactly_nonStruct (RType.base Kind.kint64)).2.1
     (fun s h => by simp [unwrapOnePtr] at h),
   (invalidModel_exactly_nonStruct (RType.struct ⟨"Post", none,
      [⟨"ID", true, "id", false, Kind.kint64⟩,
       ⟨"secret", false, "s", false, Kind.kstring⟩,
       ⟨"Skip", true, "-", false, Kind.kstring⟩,
       ⟨"NoTag", true, "", false, Kind.kstring⟩]⟩)).2.2 _ rfl _ rfl 1 (by decide)
     (by decide)⟩

/-- **C9** counterexample.  Deriving metadata from an empty cache state
for a type with a TableName method invokes the method (invocation count 1)
but leaves the secondary table-name cache EMPTY — nothing is stored in it,
contrary to the claim that the derived table name is cached there.  And
even with the secondary cache pre-populated for this very type name, a
derivation that misses the primary struct cache (the lost-race scenario)
still invokes the method again (count 1) instead of short-circuiting. -/
theorem tableNameCache_never_populated :
    getStructInfoS ⟨[], []⟩
      (RType.struct ⟨"BenchmarkUser", some "users",
        [⟨"ID", true, "id", false, Kind.kint64⟩]⟩) =
      .ok (⟨[⟨"ID", "id", 0, false, Kind.kint64⟩], "users"⟩,
        ⟨[(RType.struct ⟨"BenchmarkUser", some "users",
            [⟨"ID", true, "id", false, Kind.kint64⟩]⟩,
           ⟨[⟨"ID", "id", 0, false, Kind.kint64⟩], "users"⟩)], []⟩, 1) ∧
    getStructInfoS ⟨[], [("BenchmarkUser", "users")]⟩
      (RType.struct ⟨"BenchmarkUser", some "users",
        [⟨"ID", true, "id", false, Kind.kint64⟩]⟩) =
      .ok (⟨[⟨"ID", "id", 0, false, Kind.kint64⟩], "users"⟩,
        ⟨[(RType.struct ⟨"BenchmarkUser", some "users",
            [⟨"ID", true, "id", false, Kind.kint64⟩]⟩,
           ⟨[⟨"ID", "id", 0, false, Kind.kint64⟩], "users"⟩)],
          [("BenchmarkUser", "users")]⟩, 1) :=
  ⟨rfl, rfl⟩

/-- **C9** as amended.  The secondary table-name cache exists in the code
(performance.go) but metadata derivation never reads or writes it: every
derivation leaves it untouched, a repeated derivation short-circuits the
TableName method only through the PRIMARY struct cache (returning the
cached metadata with zero invocations), and every derivation that misses
the primary cache for a type with a TableName method invokes the method
again — there is no secondary-cache short-circuit. -/
theorem tableNameCache_unused (st : DeriveState) (typ : RType) :
    (∀ info st' k, getStructInfoS st typ = .ok (info, st', k) →
      st'.tableNameCache = st.tableNameCache) ∧
    (∀ s info, unwrapOnePtr typ = RType.struct s →
      (st.structCache.find? (fun p => p.1 == RType.struct s)).map Prod.snd = some info →
      getStructInfoS st typ = .ok (info, st, 0)) ∧
    (∀ s, unwrapOnePtr typ = RType.struct s →
      (st.structCache.find? (fun p => p.1 == RType.struct s)).map Prod.snd = none →
      s.tableNameMethod ≠ none →
      ∃ info, getStructInfoS st typ =
        .ok (info, ⟨(RType.struct s, info) :: st.structCache, st.tableNameCache⟩, 1)) := by
  have hstep : ∀ s : StructType, unwrapOnePtr typ = RType.struct s →
      getStructInfoS st typ =
        (match (st.structCache.find? (fun p => p.1 == RType.struct s)).map Prod.snd with
         | some info => .ok (info, st, 0)
         | none =>
           .ok (⟨deriveFields s.fieldList 0, deriveTableName s⟩,
             ⟨(RType.struct s, ⟨deriveFields s.fieldList 0, deriveTableName s⟩) ::
                st.structCache, st.tableNameCache⟩,
             match s.tableNameMethod with | some _ => 1 | none => 0)) := by
    intro s hu
    unfold getStructInfoS
    rw [hu]
  refine ⟨?_, ?_, ?_⟩
  · intro info st' k h
    match hu : unwrapOnePtr typ with
    | .struct s =>
      rw [hstep s hu] at h
      match hc : (st.structCache.find? (fun p => p.1 == RType.struct s)).map Prod.snd with
      | some i0 =>
        rw [hc] at h
        simp at h
        rw [← h.2.1]
      | none =>
        rw [hc] at h
        simp at h
        rw [← h.2.1]
    | .ptr t =>
      unfold getStructInfoS at h
      rw [hu] at h
      exact absurd h (by simp)
    | .base k' =>
      unfold getStructInfoS at h
      rw [hu] at h
      exact absurd h (by simp)
  · intro s info hu hc
    rw [hstep s hu, hc]
  · intro s hu hc hm
    rw [hstep s hu, hc]
    refine ⟨⟨deriveFields s.fieldList 0, deriveTableName s⟩, ?_⟩
    match hmm : s.tableNameMethod with
    | some tn => rfl
    | none => exact absurd hmm hm

theorem tableNameCache_unused_witness :
    (∀ info st' k,
      getStructInfoS ⟨[], []⟩
        (RType.struct ⟨"BenchmarkUser", some "users",
          [⟨"ID", true, "id", false, Kind.kint64⟩]⟩) = .ok (info, st', k) →
      st'.tableNameCache = DeriveState.tableNameCache ⟨[], []⟩) ∧
    (∃ info,
      getStructInfoS ⟨[], []⟩
        (RType.struct ⟨"BenchmarkUser", some "users",
          [⟨"ID", true, "id", false, Kind.kint64⟩]⟩) =
        .ok (info,
          ⟨[(RType.struct ⟨"BenchmarkUser", some "users",
              [⟨"ID", true, "id", false, Kind.kint64⟩]⟩, info)],
            DeriveState.tableNameCache ⟨[], []⟩⟩, 1)) :=
  ⟨(tableNameCache_unused ⟨[], []⟩
      (RType.struct ⟨"BenchmarkUser", some "users",
        [⟨"ID", true, "id", false, Kind.kint64⟩]⟩)).1,
   (tableNameCache_unused ⟨[], []⟩
      (RType.struct ⟨"BenchmarkUser", some "users",
        [⟨"ID", true, "id", false, Kind.kint64⟩]⟩)).2.2 _ rfl rfl (by simp)⟩

/-! ### Support lemma for the single-row-accessor claim -/

theorem scanLoop_error_after_okRows (lower : Bool) (zero : Record)
    (fields : List FieldInfo) (cmap : List (String × Nat))
    (finalErr : Option GoError) (wrapScan : Bool)
    (okRows : List (List (Option RValue))) (e : GoError)
    (rest : List (Except GoError (List (Option RValue)))) (acc : GoSlice Record)
    (hok : ∀ row ∈ okRows, ∃ rr, applyFields lower cmap row fields zero = .ok rr) :
    scanLoop lower zero fields cmap finalErr wrapScan
      (okRows.map Except.ok ++ Except.error e :: rest) acc =
      .ok (none, some (if wrapScan then GoError.wrapScanRow e else e)) := by
  induction okRows generalizing acc with
  | nil => rfl
  | cons row rows ih =>
    obtain ⟨rr, hrr⟩ := hok row (List.mem_cons_self row rows)
    simp only [List.map_cons, List.cons_append, scanLoop, hrr]
    exact ih (sliceAppend acc rr) (fun row' h' => hok row' (List.mem_cons_of_mem row h'))

/-- **C10** (confirmed).  The single-row accessors do not stop after the
first row: scanRow and RawQuery.First both consume the entire result set
through scanRows before taking element 0, so when every row up to some
point scans and coerces cleanly but a later row's Scan fails, both
accessors return the zero record together with that row's error even
though the first row had already been scanned successfully. -/
theorem singleRowAccessors_scanAllRows (s : StructType) (r : Rows)
    (okRows : List (List (Option RValue))) (e : GoError)
    (rest : List (Except GoError (List (Option RValue))))
    (hentries : r.entries = okRows.map Except.ok ++ Except.error e :: rest)
    (_hne : okRows ≠ [])
    (hok : ∀ row ∈ okRows,
      ∃ rr, applyFields true (buildColumnMap r.columns) row
        (deriveFields s.fieldList 0) (zeroRecord s) = .ok rr) :
    scanRow (RType.struct s) r = .ok (zeroRecord s, some e) ∧
    rawFirst (RType.struct s) r = .ok (zeroRecord s, some e) := by
  have hscan : scanRows (RType.struct s) r = .ok (none, some e) := by
    show scanLoop true (recordZeroOf (RType.struct s))
        (deriveFields s.fieldList 0) (buildColumnMap r.columns)
        r.finalErr false r.entries none = .ok (none, some e)
    rw [hentries]
    have := scanLoop_error_after_okRows true (recordZeroOf (RType.struct s))
      (deriveFields s.fieldList 0) (buildColumnMap r.columns)
      r.finalErr false okRows e rest none hok
    simpa using this
  constructor
  · simp only [scanRow, hscan]
    rfl
  · simp only [rawFirst, hscan]
    rfl

theorem singleRowAccessors_scanAllRows_witness :
    scanRow (RType.struct ⟨"User", none,
        [⟨"Name", true, "name", false, Kind.kstring⟩]⟩)
      ⟨["name"], [.ok [some (.vstring "alice")], .error (.driver "io")], none⟩ =
      .ok (zeroRecord ⟨"User", none, [⟨"Name", true, "name", false, Kind.kstring⟩]⟩,
        some (.driver "io")) ∧
    rawFirst (RType.struct ⟨"User", none,
        [⟨"Name", true, "name", false, Kind.kstring⟩]⟩)
      ⟨["name"], [.ok [some (.vstring "alice")], .error (.driver "io")], none⟩ =
      .ok (zeroRecord ⟨"User", none, [⟨"Name", true, "name", false, Kind.kstring⟩]⟩,
        some (.driver "io")) :=
  singleRowAccessors_scanAllRows
    ⟨"User", none, [⟨"Name", true, "name", false, Kind.kstring⟩]⟩
    ⟨["name"], [.ok [some (.vstring "alice")], .error (.driver "io")], none⟩
    [[some (.vstring "alice")]] (.driver "io") [] rfl (by simp)
    (by
      intro row hrow
      simp only [List.mem_singleton] at hrow
      subst hrow
      exact ⟨[Slot.direct (FieldVal.fstring "alice")], rfl⟩)

end SQLBlade
